import Mathlib

/-!
Verification of the data-processing pipeline of retailApp.py (Online-Retail-Dashboard).

The embedding models the load / clean / filter / aggregate portion of the
dashboard: the sales loader (load_sales_data), the country filter, the KPI
scalars, and the three aggregations the sales section computes
(monthly revenue, top products by quantity, weekday revenue), together with
the RFM segment color-grouping helper (assign_color_group).

Dataframes are modelled as lists of records; pandas group-by-and-sum
(sort=True) is modelled as summation over the sorted deduplicated key list;
the timestamp machinery (pd.to_datetime, to_period, dt.hour, dt.day_name)
is modelled by an explicit ISO-style date-time parser, a month formatter and
a day-of-week computation by the Zeller congruence.
-/

set_option maxRecDepth 4000

namespace RetailApp

/-- A parsed date-time value, as produced by the timestamp parsing step. -/
structure Timestamp where
  year : Nat
  month : Nat
  day : Nat
  hour : Nat
  minute : Nat
deriving DecidableEq, Repr

/-- Gregorian leap-year test. -/
def isLeapYear (y : Nat) : Bool :=
  (y % 4 == 0 && y % 100 != 0) || (y % 400 == 0)

/-- Number of days in a month of a given year. -/
def daysInMonth (y m : Nat) : Nat :=
  if m == 2 then (if isLeapYear y then 29 else 28)
  else if m == 4 || m == 6 || m == 9 || m == 11 then 30
  else 31

/-- Split a character list on a separator character; the separators are
dropped and the fragments between them are returned in order. -/
def splitOnChar (c : Char) : List Char → List (List Char)
  | [] => [[]]
  | a :: rest =>
    match splitOnChar c rest with
    | [] => if a = c then [[], []] else [[a]]
    | g :: gs => if a = c then [] :: g :: gs else (a :: g) :: gs

/-- Parse a nonempty all-digit character list as a decimal numeral. -/
def parseNat : List Char → Option Nat
  | [] => none
  | cs => cs.foldl
      (fun acc c => acc.bind fun n =>
        if c.isDigit then some (n * 10 + (c.toNat - 48)) else none)
      (some 0)

/-- Model of the pandas timestamp parse used on the InvoiceDate column
(line 21 of retailApp.py): a string of the shape YYYY-MM-DD HH:MM parses to
a structured date-time value with all fields range-checked; anything else is
unparsable and yields none. -/
def pd_to_datetime (s : String) : Option Timestamp :=
  match splitOnChar (' ') s.data with
  | [d, t] =>
    match splitOnChar ('-') d, splitOnChar (':') t with
    | [ys, ms, ds], [hs, mins] =>
      match parseNat ys, parseNat ms, parseNat ds, parseNat hs, parseNat mins with
      | some y, some mo, some da, some h, some mi =>
        if 1 ≤ mo && mo ≤ 12 && 1 ≤ da && da ≤ daysInMonth y mo && h < 24 && mi < 60 then
          some ⟨y, mo, da, h, mi⟩
        else none
      | _, _, _, _, _ => none
    | _, _ => none
  | _ => none

/-- The fixed calendar order of weekday names used at line 116 of
retailApp.py (days_order). -/
def days_order : List String :=
  ["Monday", "Tuesday", "Wednesday", "Thursday", "Friday", "Saturday", "Sunday"]

/-- Day-of-week index of a date by the Zeller congruence: 0 is Monday through
6 is Sunday, matching the indexing of days_order. -/
def dayOfWeekIndex (t : Timestamp) : Nat :=
  let y := if t.month < 3 then t.year - 1 else t.year
  let m := if t.month < 3 then t.month + 12 else t.month
  let k := y % 100
  let j := y / 100
  let h := (t.day + (13 * (m + 1)) / 5 + k + k / 4 + j / 4 + 5 * j) % 7
  (h + 5) % 7

/-- Model of the pandas day_name derivation (line 29 of retailApp.py): the
English weekday name of the timestamp. -/
def day_name (t : Timestamp) : String :=
  days_order.getD (dayOfWeekIndex t) ("Monday")

/-- Two-digit zero-padded month numeral. -/
def month_str (m : Nat) : String :=
  (if m < 10 then ("0") else ("")) ++ toString m

/-- Model of the pandas to_period month-bucket derivation (line 27 of
retailApp.py): the year-month string of the timestamp, e.g. 2011-01. -/
def to_period_M (t : Timestamp) : String :=
  toString t.year ++ ("-") ++ month_str t.month

/-- One raw CSV row of the transactions file, as read before cleaning.
The customer identifier is optional, modelling the NaN entries that
dropna removes; the invoice date is the unparsed string. -/
structure RawRow where
  invoice : String
  description : String
  quantity : Int
  price : Rat
  invoiceDate : String
  customerId : Option Int
  country : String
deriving DecidableEq, Repr

/-- A raw transactions file: its rows together with whether the
customer-identifier column is present at all (dropna at line 22 of
retailApp.py raises when it is absent). -/
structure RawFile where
  hasCustomerCol : Bool
  rows : List RawRow
deriving DecidableEq, Repr

/-- One cleaned transaction record, as produced by load_sales_data: the
surviving raw fields, the integer customer identifier, and the derived
columns TotalPrice, InvoiceMonth, Hour and DayOfWeek
(lines 26 to 29 of retailApp.py). -/
structure Row where
  invoice : String
  description : String
  quantity : Int
  price : Rat
  customerId : Int
  country : String
  totalPrice : Rat
  invoiceMonth : String
  hour : Nat
  dayOfWeek : String
deriving DecidableEq, Repr

/-- Parse the whole InvoiceDate column (line 21 of retailApp.py): every row
must parse, otherwise the column conversion raises and the load fails. -/
def parseDates : List RawRow → Option (List (RawRow × Timestamp))
  | [] => some []
  | r :: rs =>
    (pd_to_datetime r.invoiceDate).bind fun t =>
      (parseDates rs).map fun ps => (r, t) :: ps

/-- Drop rows with a missing customer identifier and coerce it to an
integer (lines 22 and 23 of retailApp.py). -/
def dropnaCustomer (l : List (RawRow × Timestamp)) : List (RawRow × Timestamp × Int) :=
  l.filterMap fun rt => rt.1.customerId.map fun c => (rt.1, rt.2, c)

/-- Multiplication of rational numbers, written through mkRat so that the
kernel can evaluate it on concrete inputs; ratMul_eq proves it is exactly
the multiplication of the rationals. -/
def ratMul (a b : Rat) : Rat := mkRat (a.num * b.num) (a.den * b.den)

lemma ratMul_eq (a b : Rat) : ratMul a b = a * b := by
  rw [Rat.mul_def, Rat.normalize_eq_mkRat]
  rfl

/-- Build the cleaned record with its derived columns (lines 26 to 29 of
retailApp.py). -/
def mkRow (r : RawRow) (t : Timestamp) (c : Int) : Row :=
  { invoice := r.invoice
    description := r.description
    quantity := r.quantity
    price := r.price
    customerId := c
    country := r.country
    totalPrice := ratMul (r.quantity : Rat) r.price
    invoiceMonth := to_period_M t
    hour := t.hour
    dayOfWeek := day_name t }

/-- Model of load_sales_data (lines 15 to 33 of retailApp.py): parse the
timestamp column (any unparsable row fails the whole load), require the
customer-identifier column, drop rows lacking a customer identifier, keep
only rows with positive quantity and positive price, and derive the
TotalPrice, InvoiceMonth, Hour and DayOfWeek columns. Any failure is caught
and surfaced as none instead of a table. -/
def load_sales_data (f : RawFile) : Option (List Row) :=
  match parseDates f.rows with
  | none => none
  | some parsed =>
    if f.hasCustomerCol then
      some ((((dropnaCustomer parsed).filter
        (fun x => 0 < x.1.quantity)).filter
        (fun x => 0 < x.1.price)).map
        (fun x => mkRow x.1 x.2.1 x.2.2))
    else none

/-- Model of the country filter (line 85 of retailApp.py): keep the rows
whose country is among the selected countries. -/
def filterCountries (df : List Row) (selected : List String) : List Row :=
  df.filter fun r => selected.contains r.country

/-- Model of a pandas group-by-and-sum with the default sort=True (as used
at lines 102, 109 and 115 of retailApp.py): one output pair per distinct
key, keys in ascending order, each paired with the sum of the value column
over the rows carrying that key. -/
def groupBySum {α K M : Type} [DecidableEq K] [LinearOrder K] [AddCommMonoid M]
    (keyOf : α → K) (valOf : α → M) (rows : List α) : List (K × M) :=
  (List.insertionSort (· ≤ ·) (rows.map keyOf).dedup).map
    fun k => (k, ((rows.filter fun r => keyOf r == k).map valOf).sum)

/-- Ordering of keyed aggregation rows by their key, as used by the
sort_values call on the monthly aggregation (line 102 of retailApp.py). -/
def keyLe {M : Type} (a b : String × M) : Prop := a.1 ≤ b.1

instance {M : Type} : DecidableRel (@keyLe M) :=
  fun a b => inferInstanceAs (Decidable (a.1 ≤ b.1))

instance {M : Type} : IsTotal (String × M) keyLe := ⟨fun a b => le_total a.1 b.1⟩

instance {M : Type} : IsTrans (String × M) keyLe := ⟨fun _ _ _ h h2 => le_trans h h2⟩

/-- Model of the monthly revenue aggregation (line 102 of retailApp.py):
group the filtered table by InvoiceMonth, sum TotalPrice, and sort rows by
the month string. -/
def monthly_sales (rows : List Row) : List (String × Rat) :=
  List.insertionSort keyLe (groupBySum Row.invoiceMonth Row.totalPrice rows)

/-- Ordering of product aggregation rows by descending summed quantity, as
produced by nlargest (line 109 of retailApp.py). -/
def qtyGe (a b : String × Int) : Prop := b.2 ≤ a.2

instance : DecidableRel qtyGe :=
  fun a b => inferInstanceAs (Decidable (b.2 ≤ a.2))

instance : IsTotal (String × Int) qtyGe := ⟨fun a b => le_total b.2 a.2⟩

instance : IsTrans (String × Int) qtyGe := ⟨fun _ _ _ h h2 => le_trans h2 h⟩

/-- The strict version of qtyGe: each row has a strictly larger summed
quantity than the next. -/
def qtyGt (a b : String × Int) : Prop := b.2 < a.2

instance : DecidableRel qtyGt :=
  fun a b => inferInstanceAs (Decidable (b.2 < a.2))

/-- Model of the top products aggregation (line 109 of retailApp.py): group
the filtered table by Description, sum Quantity, and keep the ten rows of
largest summed quantity in descending order, ties kept in group order as
nlargest does. -/
def top_products (rows : List Row) : List (String × Int) :=
  (List.insertionSort qtyGe (groupBySum Row.description Row.quantity rows)).take 10

/-- Position of a weekday name in the fixed calendar order; names outside
the list sort after all weekdays, as the categorical sort places them. -/
def dayIndex (s : String) : Nat := days_order.indexOf s

/-- Ordering of weekday aggregation rows by calendar position, produced by
the categorical conversion and sort at lines 117 and 118 of retailApp.py. -/
def dayLe (a b : String × Rat) : Prop := dayIndex a.1 ≤ dayIndex b.1

instance : DecidableRel dayLe :=
  fun a b => inferInstanceAs (Decidable (dayIndex a.1 ≤ dayIndex b.1))

instance : IsTotal (String × Rat) dayLe := ⟨fun a b => Nat.le_total (dayIndex a.1) (dayIndex b.1)⟩

instance : IsTrans (String × Rat) dayLe := ⟨fun _ _ _ h h2 => le_trans h h2⟩

/-- Model of the weekday revenue aggregation (lines 115 to 118 of
retailApp.py): group the filtered table by DayOfWeek, sum TotalPrice, then
reorder the resulting rows into fixed calendar order Monday through Sunday. -/
def daily_sales (rows : List Row) : List (String × Rat) :=
  List.insertionSort dayLe (groupBySum Row.dayOfWeek Row.totalPrice rows)

/-- KPI scalar Total Revenue (line 88 of retailApp.py). -/
def total_revenue (rows : List Row) : Rat := (rows.map Row.totalPrice).sum

/-- KPI scalar Total Orders (line 89 of retailApp.py): number of distinct
invoices. -/
def total_orders (rows : List Row) : Nat := (rows.map Row.invoice).dedup.length

/-- KPI scalar Unique Customers (line 90 of retailApp.py): number of
distinct customer identifiers. -/
def unique_customers (rows : List Row) : Nat := (rows.map Row.customerId).dedup.length

/-- KPI scalar Items Sold (line 91 of retailApp.py). -/
def total_items_sold (rows : List Row) : Int := (rows.map Row.quantity).sum

/-- Everything the sales dashboard section computes from the filtered table:
the four KPI scalars and the three chart aggregations
(lines 88 to 120 of retailApp.py). -/
structure SalesDashboard where
  totalRevenue : Rat
  totalOrders : Nat
  uniqueCustomers : Nat
  totalItemsSold : Int
  monthlySales : List (String × Rat)
  topProducts : List (String × Int)
  dailySales : List (String × Rat)
deriving DecidableEq, Repr

/-- Outcome of the sales dashboard section: either the guided stop reached
through st.stop when no country is selected (a user-guidance state, not an
error), or the rendered dashboard data. -/
inductive SalesOutcome where
  | halted : SalesOutcome
  | rendered : SalesDashboard → SalesOutcome
deriving DecidableEq, Repr

/-- Model of the sales dashboard section of main (lines 81 to 120 of
retailApp.py): with no selected country the script warns and stops before
any filtering, KPI computation or aggregation; otherwise it filters the
table by country and computes the KPIs and the three chart aggregations. -/
def sales_section (df : List Row) (selected_countries : List String) : SalesOutcome :=
  if selected_countries.isEmpty then SalesOutcome.halted
  else SalesOutcome.rendered
    { totalRevenue := total_revenue (filterCountries df selected_countries)
      totalOrders := total_orders (filterCountries df selected_countries)
      uniqueCustomers := unique_customers (filterCountries df selected_countries)
      totalItemsSold := total_items_sold (filterCountries df selected_countries)
      monthlySales := monthly_sales (filterCountries df selected_countries)
      topProducts := top_products (filterCountries df selected_countries)
      dailySales := daily_sales (filterCountries df selected_countries) }

/-- The hourly revenue aggregation as the specification describes it
(group the filtered table by hour of day and sum line total, hours with no
transactions absent); stated from the specification text for comparison,
since the application never computes it. -/
def hourly_revenue_spec (rows : List Row) : List (Nat × Rat) :=
  groupBySum Row.hour Row.totalPrice rows

/-- Largest mean frequency of the per-segment mean-frequency table
(line 204 of retailApp.py). -/
def max_freq (mf : List (String × Rat)) : Rat := ((mf.map Prod.snd).maximum).unbot' 0

/-- Smallest mean frequency of the per-segment mean-frequency table
(line 205 of retailApp.py). -/
def min_freq (mf : List (String × Rat)) : Rat := ((mf.map Prod.snd).minimum).untop' 0

/-- Segments whose mean frequency equals the maximum (line 207 of
retailApp.py). -/
def highest_segments (mf : List (String × Rat)) : List String :=
  (mf.filter fun p => p.2 == max_freq mf).map Prod.fst

/-- Segments whose mean frequency equals the minimum (line 208 of
retailApp.py). -/
def lowest_segments (mf : List (String × Rat)) : List String :=
  (mf.filter fun p => p.2 == min_freq mf).map Prod.fst

/-- Model of assign_color_group (lines 210 to 216 of retailApp.py): a
segment tied for the highest mean frequency is labeled first, then one tied
for the lowest, and every other segment is labeled mid-range. -/
def assign_color_group (highest lowest : List String) (segment : String) : String :=
  if segment ∈ highest then ("Highest Frequency")
  else if segment ∈ lowest then ("Lowest Frequency")
  else ("Mid-Range")

/-! ### Helper lemmas about group-by-and-sum -/

/-- Splitting a mapped sum along a Boolean predicate. -/
lemma sum_filter_add_sum_filter_not {α M : Type} [AddCommMonoid M]
    (p : α → Bool) (f : α → M) (l : List α) :
    ((l.filter p).map f).sum + ((l.filter fun a => !p a).map f).sum = (l.map f).sum := by
  induction l with
  | nil => simp
  | cons a l ih =>
    by_cases h : p a
    · simp only [List.filter_cons, h, Bool.not_true, if_true, List.map_cons, List.sum_cons,
        Bool.false_eq_true, if_false, add_assoc]
      rw [ih]
    · simp only [List.filter_cons, h, Bool.not_false, Bool.false_eq_true, if_false, if_true,
        List.map_cons, List.sum_cons]
      rw [add_left_comm, ih]

/-- Summing the per-key fiber sums over a duplicate-free key list covering
every row reproduces the total sum. -/
lemma sum_fibers {α K M : Type} [DecidableEq K] [AddCommMonoid M]
    (keyOf : α → K) (valOf : α → M) :
    ∀ ks : List K, ks.Nodup → ∀ rows : List α, (∀ r ∈ rows, keyOf r ∈ ks) →
      (ks.map fun k => ((rows.filter fun r => keyOf r == k).map valOf).sum).sum
        = (rows.map valOf).sum := by
  intro ks
  induction ks with
  | nil =>
    intro _ rows hall
    have hrows : rows = [] :=
      List.eq_nil_iff_forall_not_mem.mpr fun r hr => by simpa using hall r hr
    simp [hrows]
  | cons k ks ih =>
    intro hnd rows hall
    have hk : k ∉ ks := (List.nodup_cons.mp hnd).1
    have hnd2 : ks.Nodup := (List.nodup_cons.mp hnd).2
    have hcong : ∀ k2 ∈ ks,
        ((rows.filter fun r => keyOf r == k2).map valOf).sum
          = (((rows.filter fun r => !(keyOf r == k)).filter
              fun r => keyOf r == k2).map valOf).sum := by
      intro k2 hk2
      have hne : k2 ≠ k := fun he => hk (he ▸ hk2)
      have hfil : ((rows.filter fun r => !(keyOf r == k)).filter fun r => keyOf r == k2)
          = rows.filter fun r => keyOf r == k2 := by
        rw [List.filter_filter]
        apply List.filter_congr
        intro a _
        by_cases ha : keyOf a = k2
        · simp [ha, hne]
        · simp [ha]
      rw [hfil]
    rw [List.map_cons, List.sum_cons, List.map_congr_left hcong,
      ih hnd2 (rows.filter fun r => !(keyOf r == k)) ?_]
    · exact sum_filter_add_sum_filter_not (fun r => keyOf r == k) valOf rows
    · intro r hr
      rcases List.mem_filter.mp hr with ⟨hr1, hr2⟩
      rcases List.mem_cons.mp (hall r hr1) with h | h
      · rw [h] at hr2
        simp at hr2
      · exact h

/-- The values of a group-by-and-sum add up to the total of the value
column. -/
lemma sum_groupBySum {α K M : Type} [DecidableEq K] [LinearOrder K] [AddCommMonoid M]
    (keyOf : α → K) (valOf : α → M) (rows : List α) :
    ((groupBySum keyOf valOf rows).map Prod.snd).sum = (rows.map valOf).sum := by
  unfold groupBySum
  rw [List.map_map]
  have hperm :
      ((List.insertionSort (· ≤ ·) (rows.map keyOf).dedup).map
        (Prod.snd ∘ fun k => (k, ((rows.filter fun r => keyOf r == k).map valOf).sum))).Perm
      (((rows.map keyOf).dedup).map
        (Prod.snd ∘ fun k => (k, ((rows.filter fun r => keyOf r == k).map valOf).sum))) :=
    (List.perm_insertionSort _ _).map _
  rw [hperm.sum_eq]
  exact sum_fibers keyOf valOf _ (List.nodup_dedup _) rows
    fun r hr => List.mem_dedup.mpr (List.mem_map_of_mem _ hr)

/-- The keys of a group-by-and-sum are the sorted deduplicated keys of the
input rows. -/
lemma keys_groupBySum {α K M : Type} [DecidableEq K] [LinearOrder K] [AddCommMonoid M]
    (keyOf : α → K) (valOf : α → M) (rows : List α) :
    (groupBySum keyOf valOf rows).map Prod.fst
      = List.insertionSort (· ≤ ·) (rows.map keyOf).dedup := by
  unfold groupBySum
  have hcomp : (Prod.fst ∘ fun k : K =>
      (k, ((rows.filter fun r => keyOf r == k).map valOf).sum)) = id := rfl
  rw [List.map_map, hcomp, List.map_id]

/-! ### Helper lemmas about the loader -/

@[simp] lemma mkRow_invoice (r : RawRow) (t : Timestamp) (c : Int) :
    (mkRow r t c).invoice = r.invoice := rfl

@[simp] lemma mkRow_description (r : RawRow) (t : Timestamp) (c : Int) :
    (mkRow r t c).description = r.description := rfl

@[simp] lemma mkRow_quantity (r : RawRow) (t : Timestamp) (c : Int) :
    (mkRow r t c).quantity = r.quantity := rfl

@[simp] lemma mkRow_price (r : RawRow) (t : Timestamp) (c : Int) :
    (mkRow r t c).price = r.price := rfl

@[simp] lemma mkRow_customerId (r : RawRow) (t : Timestamp) (c : Int) :
    (mkRow r t c).customerId = c := rfl

@[simp] lemma mkRow_country (r : RawRow) (t : Timestamp) (c : Int) :
    (mkRow r t c).country = r.country := rfl

@[simp] lemma mkRow_totalPrice (r : RawRow) (t : Timestamp) (c : Int) :
    (mkRow r t c).totalPrice = (r.quantity : Rat) * r.price := ratMul_eq _ _

@[simp] lemma mkRow_invoiceMonth (r : RawRow) (t : Timestamp) (c : Int) :
    (mkRow r t c).invoiceMonth = to_period_M t := rfl

@[simp] lemma mkRow_hour (r : RawRow) (t : Timestamp) (c : Int) :
    (mkRow r t c).hour = t.hour := rfl

@[simp] lemma mkRow_dayOfWeek (r : RawRow) (t : Timestamp) (c : Int) :
    (mkRow r t c).dayOfWeek = day_name t := rfl

/-- Each parsed pair of a successful column parse is an input row together
with its parsed timestamp. -/
lemma parseDates_mem : ∀ {rows : List RawRow} {ps : List (RawRow × Timestamp)},
    parseDates rows = some ps →
    ∀ p ∈ ps, p.1 ∈ rows ∧ pd_to_datetime p.1.invoiceDate = some p.2 := by
  intro rows
  induction rows with
  | nil =>
    intro ps h p hp
    simp only [parseDates, Option.some.injEq] at h
    subst h
    cases hp
  | cons r rs ih =>
    intro ps h p hp
    simp only [parseDates] at h
    cases ht : pd_to_datetime r.invoiceDate with
    | none => rw [ht] at h; cases h
    | some t =>
      rw [ht] at h
      cases hps : parseDates rs with
      | none => rw [hps] at h; cases h
      | some ps2 =>
        rw [hps] at h
        simp only [Option.some_bind, Option.map_some', Option.some.injEq] at h
        subst h
        rcases List.mem_cons.mp hp with hp1 | hp1
        · subst hp1
          exact ⟨List.mem_cons_self _ _, ht⟩
        · rcases ih hps p hp1 with ⟨h1, h2⟩
          exact ⟨List.mem_cons_of_mem _ h1, h2⟩

/-- If any row of the file has an unparsable timestamp, the whole column
parse fails. -/
lemma parseDates_none {rows : List RawRow} {r : RawRow} (hr : r ∈ rows)
    (hbad : pd_to_datetime r.invoiceDate = none) : parseDates rows = none := by
  induction rows with
  | nil => cases hr
  | cons a rs ih =>
    rcases List.mem_cons.mp hr with h | h
    · subst h
      simp [parseDates, hbad]
    · simp only [parseDates, ih h]
      cases pd_to_datetime a.invoiceDate <;> simp

/-- A successful load exposes the pipeline shape: a successful column
parse, a present customer column, and the cleaned output built from the
staged filters. -/
lemma load_sales_data_eq {f : RawFile} {out : List Row}
    (h : load_sales_data f = some out) :
    ∃ parsed, parseDates f.rows = some parsed ∧ f.hasCustomerCol = true ∧
      out = (((dropnaCustomer parsed).filter fun x => 0 < x.1.quantity).filter
        fun x => 0 < x.1.price).map fun x => mkRow x.1 x.2.1 x.2.2 := by
  unfold load_sales_data at h
  cases hp : parseDates f.rows with
  | none => rw [hp] at h; cases h
  | some parsed =>
    rw [hp] at h
    cases hc : f.hasCustomerCol with
    | false => rw [hc] at h; simp at h
    | true =>
      rw [hc] at h
      simp only [if_true, Option.some.injEq] at h
      exact ⟨parsed, rfl, rfl, h.symm⟩

/-- Every row of a loaded table comes from a raw row with a parsable
timestamp, a present customer identifier, positive quantity and positive
price, through the derived-column construction. -/
lemma mem_load_sales_data {f : RawFile} {out : List Row}
    (h : load_sales_data f = some out) {r : Row} (hr : r ∈ out) :
    ∃ raw t c, raw ∈ f.rows ∧ pd_to_datetime raw.invoiceDate = some t ∧
      raw.customerId = some c ∧ 0 < raw.quantity ∧ 0 < raw.price ∧ r = mkRow raw t c := by
  rcases load_sales_data_eq h with ⟨parsed, hp, _, hout⟩
  subst hout
  rcases List.mem_map.mp hr with ⟨x, hx, hxr⟩
  rcases List.mem_filter.mp hx with ⟨hx2, hprice⟩
  rcases List.mem_filter.mp hx2 with ⟨hx3, hqty⟩
  rcases List.mem_filterMap.mp hx3 with ⟨rt, hrt, hmk⟩
  rcases Option.map_eq_some'.mp hmk with ⟨c, hc, hcx⟩
  rcases parseDates_mem hp rt hrt with ⟨hraw, hts⟩
  refine ⟨rt.1, rt.2, c, hraw, hts, hc, ?_, ?_, ?_⟩
  · have := of_decide_eq_true hqty
    rwa [← hcx] at this
  · have := of_decide_eq_true hprice
    rwa [← hcx] at this
  · rw [← hxr, ← hcx]

/-- The weekday-name derivation always produces one of the seven calendar
names. -/
lemma day_name_mem (t : Timestamp) : day_name t ∈ days_order := by
  unfold day_name
  have h7 : dayOfWeekIndex t < 7 := by
    unfold dayOfWeekIndex
    exact Nat.mod_lt _ (by norm_num)
  set i := dayOfWeekIndex t with hi
  interval_cases i <;> decide

/-! ### Shared example data -/

/-- A well-formed raw transaction row, as in the end-to-end example of the
specification. -/
def exRaw : RawRow :=
  { invoice := "536365"
    description := "HEART"
    quantity := 2
    price := 3
    invoiceDate := "2011-01-05 10:00"
    customerId := some 17850
    country := "United Kingdom" }

/-- A raw file with one clean row and one row that the cleaning filters
drop (negative quantity, missing customer identifier). -/
def exFile : RawFile :=
  { hasCustomerCol := true
    rows := [exRaw, { exRaw with quantity := -1, customerId := none }] }

/-- The cleaned row the loader derives from exRaw. -/
def exRow0 : Row :=
  { invoice := "536365"
    description := "HEART"
    quantity := 2
    price := 3
    customerId := 17850
    country := "United Kingdom"
    totalPrice := 6
    invoiceMonth := "2011-01"
    hour := 10
    dayOfWeek := "Wednesday" }

/-- The cleaned table the loader produces from exFile. -/
def exCleaned : List Row := [exRow0]

/-! ### Claims about the loader -/

/-- C2: every row of a table returned by the sales loader has positive
quantity, positive price, and an integer customer identifier originating
from a present (non-null) raw value; reapplying the quantity and price
filters to the loaded table changes nothing, and the drop-missing-customer
step is idempotent by construction since the cleaned customer-identifier
column is integer-valued and cannot hold a missing value. -/
theorem load_sales_data_clean (f : RawFile) (out : List Row)
    (h : load_sales_data f = some out) :
    (∀ r ∈ out, 0 < r.quantity ∧ 0 < r.price ∧
      ∃ raw ∈ f.rows, raw.customerId = some r.customerId) ∧
    (out.filter fun r => 0 < r.quantity) = out ∧
    (out.filter fun r => 0 < r.price) = out := by
  have hrow : ∀ r ∈ out, 0 < r.quantity ∧ 0 < r.price ∧
      ∃ raw ∈ f.rows, raw.customerId = some r.customerId := by
    intro r hr
    rcases mem_load_sales_data h hr with ⟨raw, t, c, hraw, _, hc, hq, hpr, hmk⟩
    subst hmk
    exact ⟨by simpa using hq, by simpa using hpr, raw, hraw, by simpa using hc⟩
  refine ⟨hrow, ?_, ?_⟩
  · exact List.filter_eq_self.mpr fun r hr => decide_eq_true (hrow r hr).1
  · exact List.filter_eq_self.mpr fun r hr => decide_eq_true (hrow r hr).2.1

/-- Witness for C2 at a concrete file: the loader keeps exactly the clean
row and the filters leave the result unchanged. -/
theorem load_sales_data_clean_witness :
    (exCleaned.filter fun r => 0 < r.quantity) = exCleaned ∧
    (exCleaned.filter fun r => 0 < r.price) = exCleaned :=
  ⟨(load_sales_data_clean exFile exCleaned (by decide)).2.1,
   (load_sales_data_clean exFile exCleaned (by decide)).2.2⟩

/-- C8: for every row of a loaded table, the derived line total equals
quantity times unit price, exactly, in rational arithmetic. -/
theorem load_sales_data_totalPrice (f : RawFile) (out : List Row)
    (h : load_sales_data f = some out) :
    ∀ r ∈ out, r.totalPrice = (r.quantity : Rat) * r.price := by
  intro r hr
  rcases mem_load_sales_data h hr with ⟨raw, t, c, _, _, _, _, _, hmk⟩
  subst hmk
  simp

/-- Witness for C8 at a concrete file: the single cleaned row has line
total 6 = 2 times 3. -/
theorem load_sales_data_totalPrice_witness :
    load_sales_data exFile = some exCleaned ∧
    exRow0.totalPrice = (exRow0.quantity : Rat) * exRow0.price := by
  constructor
  · decide
  · exact load_sales_data_totalPrice exFile exCleaned
      (by decide) exRow0 (List.mem_cons_self _ _)

/-- C6: a file whose customer-identifier column is missing, or any of whose
rows has an unparsable timestamp, fails the load entirely: the loader
returns no table at all rather than a partial one. -/
theorem load_sales_data_malformed (f : RawFile)
    (h : f.hasCustomerCol = false ∨
      ∃ r ∈ f.rows, pd_to_datetime r.invoiceDate = none) :
    load_sales_data f = none := by
  rcases h with h | ⟨r, hr, hbad⟩
  · unfold load_sales_data
    cases hp : parseDates f.rows with
    | none => rfl
    | some parsed => rw [h]; simp
  · unfold load_sales_data
    rw [parseDates_none hr hbad]

/-- A raw file lacking the customer-identifier column. -/
def exFileNoCust : RawFile := { hasCustomerCol := false, rows := [exRaw] }

/-- A raw file with one row whose timestamp does not parse. -/
def exFileBadTs : RawFile :=
  { hasCustomerCol := true
    rows := [exRaw, { exRaw with invoiceDate := "not-a-date" }] }

/-- Witness for C6 at two concrete files: a missing customer column and an
unparsable timestamp each make the loader return no table. -/
theorem load_sales_data_malformed_witness :
    load_sales_data exFileNoCust = none ∧ load_sales_data exFileBadTs = none :=
  ⟨load_sales_data_malformed exFileNoCust (Or.inl rfl),
   load_sales_data_malformed exFileBadTs
    (Or.inr ⟨{ exRaw with invoiceDate := "not-a-date" }, by decide, by decide⟩)⟩

/-! ### Claims about the aggregation stage -/

/-- C3: for every filtered subset of the transaction table, the monthly
revenue aggregation sums to the same grand total as the KPI revenue
scalar. -/
theorem monthly_sales_total_revenue (df : List Row) (sel : List String) :
    ((monthly_sales (filterCountries df sel)).map Prod.snd).sum
      = total_revenue (filterCountries df sel) := by
  unfold monthly_sales total_revenue
  rw [((List.perm_insertionSort keyLe _).map Prod.snd).sum_eq]
  exact sum_groupBySum Row.invoiceMonth Row.totalPrice _

/-- C4 as amended: the top-products aggregation returns at most ten rows,
in weakly descending order of summed quantity (rows with equal sums are
adjacent, so the order is not strict in general). -/
theorem top_products_len_sorted (rows : List Row) :
    (top_products rows).length ≤ 10 ∧ List.Sorted qtyGe (top_products rows) := by
  constructor
  · unfold top_products
    rw [List.length_take]
    exact min_le_left _ _
  · exact List.Pairwise.sublist (List.take_sublist _ _)
      (List.sorted_insertionSort qtyGe _)

/-- A cleaned transaction row used to build concrete aggregation inputs. -/
def rowA : Row :=
  { invoice := "1"
    description := "A"
    quantity := 1
    price := 1
    customerId := 1
    country := "United Kingdom"
    totalPrice := 1
    invoiceMonth := "2011-01"
    hour := 10
    dayOfWeek := "Wednesday" }

/-- A second row for a different product with the same quantity. -/
def rowB : Row := { rowA with description := "B", invoice := "2" }

/-- Counterexample to C4 as stated: with two products of equal summed
quantity the top-products rows are not strictly descending. -/
theorem top_products_not_strict_cex :
    top_products [rowA, rowB] = [(("A"), 1), (("B"), 1)] ∧
    ¬ List.Pairwise qtyGt (top_products [rowA, rowB]) := by
  constructor
  · with_unfolding_all decide
  · with_unfolding_all decide

/-- C7: with an empty country selection the sales section halts in the
guided stop state: it performs no filtering, computes no KPI and invokes no
aggregation, and this is a user-guidance state rather than an error or an
empty-chart dashboard. -/
theorem sales_section_empty_halts (df : List Row) :
    sales_section df [] = SalesOutcome.halted := rfl

/-- C1 as amended: the weekday revenue aggregation has exactly one row per
weekday name occurring in the filtered table, each key one of the seven
calendar names, with no duplicates, reordered into the fixed calendar order
Monday through Sunday; a weekday with no transactions in the filtered set
is absent from the output rather than appearing with a zero sum. -/
theorem daily_sales_calendar (rows : List Row)
    (h : ∀ r ∈ rows, r.dayOfWeek ∈ days_order) :
    ((daily_sales rows).map Prod.fst).Nodup ∧
    (∀ k, k ∈ (daily_sales rows).map Prod.fst ↔ k ∈ rows.map Row.dayOfWeek) ∧
    (∀ k ∈ (daily_sales rows).map Prod.fst, k ∈ days_order) ∧
    List.Sorted dayLe (daily_sales rows) := by
  have hperm : ((daily_sales rows).map Prod.fst).Perm
      ((groupBySum Row.dayOfWeek Row.totalPrice rows).map Prod.fst) :=
    (List.perm_insertionSort dayLe _).map _
  have hkeys := keys_groupBySum Row.dayOfWeek Row.totalPrice rows
  have hperm2 : (List.insertionSort (· ≤ ·) ((rows.map Row.dayOfWeek).dedup)).Perm
      ((rows.map Row.dayOfWeek).dedup) := List.perm_insertionSort _ _
  have hmem : ∀ k, k ∈ (daily_sales rows).map Prod.fst ↔ k ∈ rows.map Row.dayOfWeek := by
    intro k
    rw [hperm.mem_iff, hkeys, hperm2.mem_iff, List.mem_dedup]
  refine ⟨?_, hmem, ?_, ?_⟩
  · rw [hperm.nodup_iff, hkeys, hperm2.nodup_iff]
    exact List.nodup_dedup _
  · intro k hk
    rcases List.mem_map.mp ((hmem k).mp hk) with ⟨r, hr, hrk⟩
    exact hrk ▸ h r hr
  · exact List.sorted_insertionSort dayLe _

/-- Counterexample to C1 as stated: on a filtered table whose only
transaction falls on a Wednesday, the weekday aggregation has a single row
rather than all seven weekday rows zero-filled. -/
theorem daily_sales_missing_days_cex :
    (daily_sales exCleaned).map Prod.fst = [("Wednesday")] ∧
    (daily_sales exCleaned).map Prod.fst ≠ days_order := by
  constructor
  · with_unfolding_all decide
  · with_unfolding_all decide

/-- Witness for the amended C1 at a concrete table: the aggregation output
of the one-row cleaned table is sorted in calendar order. -/
theorem daily_sales_calendar_witness :
    List.Sorted dayLe (daily_sales exCleaned) :=
  (daily_sales_calendar exCleaned (by decide)).2.2.2

/-! ### The hour column is never aggregated -/

/-- Rewrite the derived hour field of a row by an arbitrary function,
leaving every other column unchanged. -/
def setHour (g : Row → Nat) (r : Row) : Row := { r with hour := g r }

lemma filterCountries_setHour (df : List Row) (sel : List String) (g : Row → Nat) :
    filterCountries (df.map (setHour g)) sel = (filterCountries df sel).map (setHour g) := by
  unfold filterCountries
  rw [List.filter_map]
  rfl

lemma groupBySum_map_inv {α K M : Type} [DecidableEq K] [LinearOrder K] [AddCommMonoid M]
    (m : α → α) (keyOf : α → K) (valOf : α → M)
    (hk : ∀ a, keyOf (m a) = keyOf a) (hv : ∀ a, valOf (m a) = valOf a) (rows : List α) :
    groupBySum keyOf valOf (rows.map m) = groupBySum keyOf valOf rows := by
  unfold groupBySum
  have h1 : (rows.map m).map keyOf = rows.map keyOf := by
    rw [List.map_map]
    exact List.map_congr_left fun a _ => hk a
  rw [h1]
  apply List.map_congr_left
  intro k _
  have h2 : (rows.map m).filter (fun r => keyOf r == k)
      = (rows.filter fun r => keyOf r == k).map m := by
    rw [List.filter_map]
    congr 1
    exact List.filter_congr fun a _ => by simp [Function.comp, hk a]
  rw [h2, List.map_map]
  have h3 : (rows.filter fun r => keyOf r == k).map (valOf ∘ m)
      = (rows.filter fun r => keyOf r == k).map valOf :=
    List.map_congr_left fun a _ => hv a
  rw [h3]

lemma monthly_sales_setHour (g : Row → Nat) (l : List Row) :
    monthly_sales (l.map (setHour g)) = monthly_sales l := by
  unfold monthly_sales
  rw [groupBySum_map_inv (setHour g) Row.invoiceMonth Row.totalPrice
    (fun _ => rfl) (fun _ => rfl)]

lemma top_products_setHour (g : Row → Nat) (l : List Row) :
    top_products (l.map (setHour g)) = top_products l := by
  unfold top_products
  rw [groupBySum_map_inv (setHour g) Row.description Row.quantity
    (fun _ => rfl) (fun _ => rfl)]

lemma daily_sales_setHour (g : Row → Nat) (l : List Row) :
    daily_sales (l.map (setHour g)) = daily_sales l := by
  unfold daily_sales
  rw [groupBySum_map_inv (setHour g) Row.dayOfWeek Row.totalPrice
    (fun _ => rfl) (fun _ => rfl)]

lemma total_revenue_setHour (g : Row → Nat) (l : List Row) :
    total_revenue (l.map (setHour g)) = total_revenue l := by
  unfold total_revenue
  have hcomp : (Row.totalPrice ∘ setHour g) = Row.totalPrice := rfl
  rw [List.map_map, hcomp]

lemma total_orders_setHour (g : Row → Nat) (l : List Row) :
    total_orders (l.map (setHour g)) = total_orders l := by
  unfold total_orders
  have hcomp : (Row.invoice ∘ setHour g) = Row.invoice := rfl
  rw [List.map_map, hcomp]

lemma unique_customers_setHour (g : Row → Nat) (l : List Row) :
    unique_customers (l.map (setHour g)) = unique_customers l := by
  unfold unique_customers
  have hcomp : (Row.customerId ∘ setHour g) = Row.customerId := rfl
  rw [List.map_map, hcomp]

lemma total_items_sold_setHour (g : Row → Nat) (l : List Row) :
    total_items_sold (l.map (setHour g)) = total_items_sold l := by
  unfold total_items_sold
  have hcomp : (Row.quantity ∘ setHour g) = Row.quantity := rfl
  rw [List.map_map, hcomp]

/-- C9 as amended: the loader derives an hour-of-day column, but the sales
dashboard computes no hourly revenue aggregation: every KPI and every chart
aggregation it produces is invariant under arbitrarily rewriting the hour
field of every row, so no computed output groups or sums by hour. -/
theorem sales_section_hour_invariant (df : List Row) (sel : List String) (g : Row → Nat) :
    sales_section (df.map (setHour g)) sel = sales_section df sel := by
  unfold sales_section
  by_cases hs : sel.isEmpty
  · rw [if_pos hs, if_pos hs]
  · rw [if_neg hs, if_neg hs, filterCountries_setHour, monthly_sales_setHour,
      top_products_setHour, daily_sales_setHour, total_revenue_setHour,
      total_orders_setHour, unique_customers_setHour, total_items_sold_setHour]

/-- The row rowA with its hour moved from 10 to 11. -/
def rowA11 : Row := { rowA with hour := 11 }

/-- Counterexample to C9 as stated: two filtered tables that differ only in
the hour of their single transaction have different hourly revenue
aggregations in the sense of the specification, yet the sales section
computes exactly the same dashboard for both, so the aggregation stage
cannot be computing an hourly revenue aggregation. -/
theorem hourly_revenue_not_computed_cex :
    hourly_revenue_spec [rowA] ≠ hourly_revenue_spec [rowA11] ∧
    sales_section [rowA] [("United Kingdom")] = sales_section [rowA11] [("United Kingdom")] := by
  constructor
  · with_unfolding_all decide
  · with_unfolding_all decide

/-! ### Claims about the segment color-grouping -/

/-- Every mean frequency in the table is at most the maximum. -/
lemma le_max_freq {mf : List (String × Rat)} {p : String × Rat} (hp : p ∈ mf) :
    p.2 ≤ max_freq mf := by
  have hmem : p.2 ∈ mf.map Prod.snd := List.mem_map_of_mem _ hp
  unfold max_freq
  cases hmax : (mf.map Prod.snd).maximum with
  | bot =>
    rw [List.maximum_eq_bot] at hmax
    rw [hmax] at hmem
    cases hmem
  | coe m =>
    have hle := List.le_maximum_of_mem hmem hmax
    simpa using hle

/-- Every mean frequency in the table is at least the minimum. -/
lemma min_freq_le {mf : List (String × Rat)} {p : String × Rat} (hp : p ∈ mf) :
    min_freq mf ≤ p.2 := by
  have hmem : p.2 ∈ mf.map Prod.snd := List.mem_map_of_mem _ hp
  unfold min_freq
  cases hmin : (mf.map Prod.snd).minimum with
  | top =>
    rw [List.minimum_eq_top] at hmin
    rw [hmin] at hmem
    cases hmem
  | coe m =>
    have hle := List.minimum_le_of_mem hmem hmin
    simpa using hle

/-- With one row per segment, a segment is among the highest-frequency
segments exactly when its mean equals the maximum. -/
lemma mem_highest_iff {mf : List (String × Rat)} (hnd : (mf.map Prod.fst).Nodup)
    {p : String × Rat} (hp : p ∈ mf) :
    p.1 ∈ highest_segments mf ↔ p.2 = max_freq mf := by
  constructor
  · intro h
    rcases List.mem_map.mp h with ⟨q, hq, hq1⟩
    rcases List.mem_filter.mp hq with ⟨hqmf, hqeq⟩
    have hqp : q = p := List.inj_on_of_nodup_map hnd hqmf hp hq1
    rw [← hqp]
    simpa using hqeq
  · intro h
    exact List.mem_map_of_mem _ (List.mem_filter.mpr ⟨hp, by simp [h]⟩)

/-- With one row per segment, a segment is among the lowest-frequency
segments exactly when its mean equals the minimum. -/
lemma mem_lowest_iff {mf : List (String × Rat)} (hnd : (mf.map Prod.fst).Nodup)
    {p : String × Rat} (hp : p ∈ mf) :
    p.1 ∈ lowest_segments mf ↔ p.2 = min_freq mf := by
  constructor
  · intro h
    rcases List.mem_map.mp h with ⟨q, hq, hq1⟩
    rcases List.mem_filter.mp hq with ⟨hqmf, hqeq⟩
    have hqp : q = p := List.inj_on_of_nodup_map hnd hqmf hp hq1
    rw [← hqp]
    simpa using hqeq
  · intro h
    exact List.mem_map_of_mem _ (List.mem_filter.mpr ⟨hp, by simp [h]⟩)

/-- C5: for every per-segment mean-frequency table (one row per segment),
the color-grouping labels a segment by comparing its mean with the extremes:
equal to the maximum gives the highest-frequency label, otherwise equal to
the minimum gives the lowest-frequency label, and anything else is
mid-range; ties at either extreme all receive the extreme label. -/
theorem assign_color_group_spec (mf : List (String × Rat))
    (hnd : (mf.map Prod.fst).Nodup) :
    ∀ p ∈ mf,
      assign_color_group (highest_segments mf) (lowest_segments mf) p.1 =
        if p.2 = max_freq mf then ("Highest Frequency")
        else if p.2 = min_freq mf then ("Lowest Frequency")
        else ("Mid-Range") := by
  intro p hp
  unfold assign_color_group
  by_cases hmax : p.2 = max_freq mf
  · rw [if_pos ((mem_highest_iff hnd hp).mpr hmax), if_pos hmax]
  · rw [if_neg (fun hmem => hmax ((mem_highest_iff hnd hp).mp hmem)), if_neg hmax]
    by_cases hmin : p.2 = min_freq mf
    · rw [if_pos ((mem_lowest_iff hnd hp).mpr hmin), if_pos hmin]
    · rw [if_neg (fun hmem => hmin ((mem_lowest_iff hnd hp).mp hmem)), if_neg hmin]

/-- The mean-frequency table of the specification example: A and B tie for
the highest mean, C has the lowest, D is in between. -/
def mfEx : List (String × Rat) :=
  [(("A"), 5), (("B"), 5), (("C"), 1), (("D"), 3)]

/-- Witness for C5 at the specification example: A and B are both labeled
highest, C lowest, and D mid-range. -/
theorem assign_color_group_spec_witness :
    assign_color_group (highest_segments mfEx) (lowest_segments mfEx) ("A")
      = ("Highest Frequency") ∧
    assign_color_group (highest_segments mfEx) (lowest_segments mfEx) ("B")
      = ("Highest Frequency") ∧
    assign_color_group (highest_segments mfEx) (lowest_segments mfEx) ("C")
      = ("Lowest Frequency") ∧
    assign_color_group (highest_segments mfEx) (lowest_segments mfEx) ("D")
      = ("Mid-Range") := by
  refine ⟨?_, ?_, ?_, ?_⟩
  · exact (assign_color_group_spec mfEx (by decide) (("A"), 5) (by decide)).trans (by decide)
  · exact (assign_color_group_spec mfEx (by decide) (("B"), 5) (by decide)).trans (by decide)
  · exact (assign_color_group_spec mfEx (by decide) (("C"), 1) (by decide)).trans (by decide)
  · exact (assign_color_group_spec mfEx (by decide) (("D"), 3) (by decide)).trans (by decide)

/-- C10: when the maximum mean frequency equals the minimum (for instance
in a single-segment table), every segment of the table is labeled with the
highest-frequency label, because the highest-tier membership test is
applied first; consequently no segment receives the lowest-frequency or
mid-range label. -/
theorem assign_color_group_all_equal (mf : List (String × Rat))
    (h : max_freq mf = min_freq mf) :
    ∀ p ∈ mf, assign_color_group (highest_segments mf) (lowest_segments mf) p.1
      = ("Highest Frequency") := by
  intro p hp
  have h1 := le_max_freq hp
  have h2 := min_freq_le hp
  have hpm : p.2 = max_freq mf := le_antisymm h1 (h ▸ h2)
  have hmem : p.1 ∈ highest_segments mf := by
    unfold highest_segments
    exact List.mem_map_of_mem _ (List.mem_filter.mpr ⟨hp, by simp [hpm]⟩)
  unfold assign_color_group
  rw [if_pos hmem]

/-- A single-segment mean-frequency table, where the maximum and the
minimum coincide. -/
def mfOne : List (String × Rat) := [(("champions"), 5)]

/-- Witness for C10 at a single-segment table: the lone segment is labeled
highest. -/
theorem assign_color_group_all_equal_witness :
    assign_color_group (highest_segments mfOne) (lowest_segments mfOne) ("champions")
      = ("Highest Frequency") :=
  assign_color_group_all_equal mfOne (by decide) (("champions"), 5) (by decide)

end RetailApp
